import Mathlib

/-!
# Verification of the station/MODIS match-up core

A shallow embedding of `src/lst_filler/data/matchup.py`.

Modelling conventions:
* A floating-point value that may be NaN is modelled as `Option ℚ`
  (`none` = NaN).  IEEE comparisons involving NaN are false, which is
  captured by `oabs_le`.
* Timestamps are rationals measured in seconds; the code's
  `(time_station - time_modis).dt.total_seconds() / 3600` becomes a
  division by 3600.
* `xarray`'s `shift(index=-1, fill_value=False)` / `shift(index=1, ...)`
  on boolean arrays become `shiftm1` / `shiftp1` on `List Bool`.
* `DataFrame.loc[boolean mask]` becomes `selectMask`.
* `create_modis_selection`'s `set_index([...]).sort_index()` becomes an
  insertion sort on lexicographically ordered keys; the nearest-neighbour
  lookup `da_modis.sel(..., method="nearest")` is an abstract function
  `Key → GridSample`, and its results are attached to the station rows
  positionally, exactly as the assignments
  `df_station["modis_LST"] = matched_lst_points.values` do.
* The positional join `df_t1.join(df_t0.set_index(df_t1.index))` becomes
  `zipWith joinOne` (both sides carry identical index lists; the rows of
  a station group have unique timestamps under the data-model invariant).
-/

namespace Matchup

/-- A float that may be NaN (`none`). -/
abbrev Fl := Option ℚ

/-- Boolean test `abs x <= c` under IEEE semantics: false when `x` is NaN. -/
def oabs_le (x : Fl) (c : ℚ) : Bool :=
  match x with
  | none => false
  | some v => decide (|v| ≤ c)

/-- Model of `DataArray.shift(index=-1, fill_value=False)`: drop the head, pad with
`false` at the end. -/
def shiftm1 : List Bool → List Bool
  | [] => []
  | _ :: t => t ++ [false]

/-- Model of `DataArray.shift(index=1, fill_value=False)`: pad with `false` at the
front, drop the last element. -/
def shiftp1 : List Bool → List Bool
  | [] => []
  | x :: t => false :: (x :: t).dropLast

/-! The intermediate arrays of `get_matching_and_prev`
(matchup.py, lines 96–115), one definition per assignment. -/

/-- Line 100: `mask_match_t1 = time_diff_hrs.pipe(abs) <= 1`. -/
def mask_match_t1 (time_diff_hrs : List Fl) : List Bool :=
  time_diff_hrs.map (fun o => oabs_le o 1)

/-- Line 104: `mask_match_t0 = mask_match_t1.shift(index=-1, fill_value=False)`. -/
def mask_match_t0 (time_diff_hrs : List Fl) : List Bool :=
  shiftm1 (mask_match_t1 time_diff_hrs)

/-- Line 106: `mask_match_t0_within_4hrs = time_diff_hrs.where(mask_match_t0).pipe(abs) <= 4`. `where` turns masked-out entries into NaN, so the comparison is
false there. -/
def mask_match_t0_within_4hrs (time_diff_hrs : List Fl) : List Bool :=
  (List.zipWith (fun o m => if m then o else none) time_diff_hrs
    (mask_match_t0 time_diff_hrs)).map (fun o => oabs_le o 4)

/-- Line 109: `mask_match_t1_with_prev = mask_match_t0_within_4hrs.shift(index=1, fill_value=False)`. -/
def mask_match_t1_with_prev (time_diff_hrs : List Fl) : List Bool :=
  shiftp1 (mask_match_t0_within_4hrs time_diff_hrs)

/-- Embedding of `get_matching_and_prev` (matchup.py, lines 96–115).
`time_diff_hrs` is the signed offset (station time − matched MODIS time)
in hours, possibly NaN.  Returns `(mask_match_t1, mask_match_t0)` after the
final conjunctions of lines 112–113: the current-match mask and the
previous-anchor mask. -/
def get_matching_and_prev (time_diff_hrs : List Fl) : List Bool × List Bool :=
  (List.zipWith (· && ·) (mask_match_t1 time_diff_hrs)
     (mask_match_t1_with_prev time_diff_hrs),
   List.zipWith (· && ·) (mask_match_t0 time_diff_hrs)
     (mask_match_t0_within_4hrs time_diff_hrs))

/-! ## Index-level reading of the mask pipeline

`code*` are the values of the intermediate arrays of
`get_matching_and_prev` at index `i`, read off the pipeline.
Out-of-range accesses use `getD i none`, i.e. behave as NaN. -/

/-- Value of `mask_match_t1[i]`: the current-match test of the code at index `i`. -/
def codeCur (offs : List Fl) (i : ℕ) : Bool :=
  oabs_le (offs.getD i none) 1

/-- Value of `mask_match_t0[i]`: row `i` is an anchor candidate iff row `i+1`
passes the current-match test (false past the end). -/
def codeAnchorCand (offs : List Fl) (i : ℕ) : Bool :=
  codeCur offs (i + 1)

/-- Value of `mask_match_t0_within_4hrs[i]`: anchor candidate whose own offset is
within 4 hours. -/
def codeAnchorWithin (offs : List Fl) (i : ℕ) : Bool :=
  codeAnchorCand offs i && oabs_le (offs.getD i none) 4

/-- Value of `mask_match_t1_with_prev[i]`: the predecessor is a within-bound anchor
(false at index 0). -/
def codeHasAnchor (offs : List Fl) : ℕ → Bool
  | 0 => false
  | j + 1 => codeAnchorWithin offs j

/-- A list is *indexed by* `g` over length `n` if `l[i]?` is `some (g i)`
below `n` and `none` from `n` on. -/
def IndexedBy (l : List α) (n : ℕ) (g : ℕ → α) : Prop :=
  ∀ i, l[i]? = if i < n then some (g i) else none

lemma IndexedBy.length {l : List α} {n : ℕ} {g : ℕ → α} (h : IndexedBy l n g) :
    l.length = n := by
  by_contra hne
  rcases Nat.lt_or_ge l.length n with hlt | hge
  · have := h l.length
    rw [List.getElem?_eq_none (le_refl _)] at this
    simp [hlt] at this
  · have hn : n < l.length := by omega
    have := h n
    rcases List.getElem?_eq_some_iff.2 ⟨hn, rfl⟩ with hsome
    simp [hsome] at this

lemma indexedBy_self (l : List α) (d : α) : IndexedBy l l.length (fun i => l.getD i d) := by
  intro i
  by_cases hi : i < l.length
  · rcases List.getElem?_eq_some_iff.2 ⟨hi, rfl⟩ with hsome
    simp [hsome, hi, List.getD_eq_getElem?_getD]
  · simp [hi, List.getElem?_eq_none (le_of_not_lt hi)]

lemma IndexedBy.map {l : List α} {n : ℕ} {g : ℕ → α} (h : IndexedBy l n g)
    (f : α → β) : IndexedBy (l.map f) n (fun i => f (g i)) := by
  intro i
  rw [List.getElem?_map, h i]
  by_cases hi : i < n <;> simp [hi]

lemma IndexedBy.zipWith {l₁ : List α} {l₂ : List β} {n : ℕ} {g₁ : ℕ → α}
    {g₂ : ℕ → β} (h₁ : IndexedBy l₁ n g₁) (h₂ : IndexedBy l₂ n g₂)
    (f : α → β → γ) : IndexedBy (List.zipWith f l₁ l₂) n (fun i => f (g₁ i) (g₂ i)) := by
  intro i
  rw [List.getElem?_zipWith, h₁ i, h₂ i]
  by_cases hi : i < n <;> simp [hi]

lemma IndexedBy.shiftm1 {l : List Bool} {n : ℕ} {g : ℕ → Bool} (h : IndexedBy l n g) :
    IndexedBy (shiftm1 l) n (fun i => if i + 1 < n then g (i + 1) else false) := by
  have hlen := h.length
  intro i
  cases l with
  | nil =>
    have hn : n = 0 := by simpa using hlen.symm
    subst hn
    simp [Matchup.shiftm1]
  | cons x t =>
    have hlen' : t.length + 1 = n := by simpa using hlen
    simp only [Matchup.shiftm1]
    by_cases hi : i < n
    · by_cases hi1 : i + 1 < n
      · have hit : i < t.length := by omega
        rw [List.getElem?_append_left hit]
        have hh := h (i + 1)
        rw [List.getElem?_cons_succ] at hh
        rw [hh]
        simp [hi, hi1]
      · have hit : i = t.length := by omega
        rw [List.getElem?_append_right (le_of_eq hit.symm)]
        simp only [hit, Nat.sub_self, List.getElem?_cons_zero]
        rw [if_pos (by omega), if_neg (by omega)]
    · have hit : t.length ≤ i := by omega
      rw [List.getElem?_append_right hit]
      have hne : i - t.length ≠ 0 := by omega
      rcases Nat.exists_eq_succ_of_ne_zero hne with ⟨k, hk⟩
      simp [hi, hk]

lemma IndexedBy.shiftp1 {l : List Bool} {n : ℕ} {g : ℕ → Bool} (h : IndexedBy l n g) :
    IndexedBy (shiftp1 l) n
      (fun i => match i with | 0 => false | j + 1 => if j + 1 < n then g j else false) := by
  have hlen := h.length
  intro i
  cases l with
  | nil =>
    have hn : n = 0 := by simpa using hlen.symm
    subst hn
    simp [Matchup.shiftp1]
  | cons x t =>
    have hlen' : t.length + 1 = n := by simpa using hlen
    cases i with
    | zero =>
      simp only [Matchup.shiftp1, List.getElem?_cons_zero]
      have h0 : 0 < n := by omega
      simp [h0]
    | succ j =>
      simp only [Matchup.shiftp1, List.getElem?_cons_succ]
      rw [List.getElem?_dropLast]
      by_cases hj : j + 1 < n
      · have hjt : j < (x :: t).length - 1 := by simp; omega
        rw [if_pos hjt, h j]
        have hjn : j < n := by omega
        simp [hjn, hj]
      · have hjt : ¬ j < (x :: t).length - 1 := by simp; omega
        rw [if_neg hjt]
        simp [hj]

lemma mask_match_t1_indexed (offs : List Fl) :
    IndexedBy (mask_match_t1 offs) offs.length (codeCur offs) :=
  (indexedBy_self offs none).map (fun o => oabs_le o 1)

lemma mask_match_t0_indexed (offs : List Fl) :
    IndexedBy (mask_match_t0 offs) offs.length (codeAnchorCand offs) := by
  have h := (mask_match_t1_indexed offs).shiftm1
  intro i
  simp only [mask_match_t0]
  rw [h i]
  by_cases hi : i < offs.length
  · simp only [hi, if_true]
    by_cases hi1 : i + 1 < offs.length
    · simp [hi1, codeAnchorCand]
    · simp only [hi1, if_false]
      have hnone : offs[i + 1]? = none := List.getElem?_eq_none (by omega)
      simp [codeAnchorCand, codeCur, oabs_le, List.getD_eq_getElem?_getD, hnone]
  · simp [hi]

lemma mask_match_t0_within_4hrs_indexed (offs : List Fl) :
    IndexedBy (mask_match_t0_within_4hrs offs) offs.length (codeAnchorWithin offs) := by
  have h := ((indexedBy_self offs none).zipWith (mask_match_t0_indexed offs)
    (fun o m => if m then o else none)).map (fun o => oabs_le o 4)
  intro i
  simp only [mask_match_t0_within_4hrs]
  rw [h i]
  by_cases hi : i < offs.length
  · simp only [hi, if_true]
    cases hm : codeAnchorCand offs i <;>
      simp [codeAnchorWithin, hm, oabs_le]
  · simp [hi]

lemma mask_match_t1_with_prev_indexed (offs : List Fl) :
    IndexedBy (mask_match_t1_with_prev offs) offs.length (codeHasAnchor offs) := by
  have h := (mask_match_t0_within_4hrs_indexed offs).shiftp1
  intro i
  simp only [mask_match_t1_with_prev]
  rw [h i]
  by_cases hi : i < offs.length
  · simp only [hi, if_true]
    cases i with
    | zero => simp [codeHasAnchor]
    | succ j => simp [codeHasAnchor, hi]
  · simp [hi]

/-- Index-level characterisation of the returned current-match mask. -/
lemma gm_fst_indexed (offs : List Fl) :
    IndexedBy (get_matching_and_prev offs).1 offs.length
      (fun i => codeCur offs i && codeHasAnchor offs i) :=
  (mask_match_t1_indexed offs).zipWith (mask_match_t1_with_prev_indexed offs) (· && ·)

/-- Index-level characterisation of the returned previous-anchor mask. -/
lemma gm_snd_indexed (offs : List Fl) :
    IndexedBy (get_matching_and_prev offs).2 offs.length
      (fun i => codeAnchorCand offs i && codeAnchorWithin offs i) :=
  (mask_match_t0_indexed offs).zipWith (mask_match_t0_within_4hrs_indexed offs) (· && ·)

lemma gm_fst_length (offs : List Fl) :
    (get_matching_and_prev offs).1.length = offs.length :=
  (gm_fst_indexed offs).length

lemma gm_snd_length (offs : List Fl) :
    (get_matching_and_prev offs).2.length = offs.length :=
  (gm_snd_indexed offs).length

/-! ## The spec's five-step algorithm (§4.3 of the spec)

These definitions follow the spec's words, for the refinement claim that
the code's mask pipeline computes exactly them.  Offsets are plain
rationals here (the spec's algorithm is stated for defined offsets). -/

/-- Step 1: `current[i] = |offset[i]| <= match_tolerance` (tolerance 1 h). -/
def spec_current (offs : List ℚ) (i : ℕ) : Bool :=
  match offs[i]? with
  | some v => decide (|v| ≤ 1)
  | none => false

/-- Step 2: `anchor_candidate[i] = current[i+1]`, with
`anchor_candidate[n-1] = false`. -/
def spec_anchor_candidate (offs : List ℚ) (i : ℕ) : Bool :=
  if i + 1 < offs.length then spec_current offs (i + 1) else false

/-- Step 3: `anchor_within_bound[i] = anchor_candidate[i] AND |offset[i]| <= 4`. -/
def spec_anchor_within_bound (offs : List ℚ) (i : ℕ) : Bool :=
  spec_anchor_candidate offs i &&
    (match offs[i]? with
     | some v => decide (|v| ≤ 4)
     | none => false)

/-- Step 4: `current_has_valid_anchor[i] = anchor_within_bound[i-1]`, with
`current_has_valid_anchor[0] = false`. -/
def spec_current_has_valid_anchor (offs : List ℚ) : ℕ → Bool
  | 0 => false
  | j + 1 => spec_anchor_within_bound offs j

/-- Step 5a: `is_current_match[i] = current[i] AND current_has_valid_anchor[i]`. -/
def spec_is_current_match (offs : List ℚ) (i : ℕ) : Bool :=
  spec_current offs i && spec_current_has_valid_anchor offs i

/-- Step 5b: `is_previous_anchor[i] = anchor_candidate[i] AND anchor_within_bound[i]`. -/
def spec_is_previous_anchor (offs : List ℚ) (i : ℕ) : Bool :=
  spec_anchor_candidate offs i && spec_anchor_within_bound offs i

lemma codeCur_map_some (offs : List ℚ) (i : ℕ) :
    codeCur (offs.map some) i = spec_current offs i := by
  unfold codeCur spec_current
  rw [List.getD_eq_getElem?_getD, List.getElem?_map]
  cases offs[i]? <;> simp [oabs_le]

lemma codeAnchorCand_map_some (offs : List ℚ) (i : ℕ) :
    codeAnchorCand (offs.map some) i = spec_anchor_candidate offs i := by
  unfold codeAnchorCand spec_anchor_candidate
  rw [codeCur_map_some]
  by_cases hi1 : i + 1 < offs.length
  · simp [hi1]
  · rw [if_neg hi1]
    unfold spec_current
    rw [List.getElem?_eq_none (by omega)]

lemma codeAnchorWithin_map_some (offs : List ℚ) (i : ℕ) :
    codeAnchorWithin (offs.map some) i = spec_anchor_within_bound offs i := by
  unfold codeAnchorWithin spec_anchor_within_bound
  rw [codeAnchorCand_map_some, List.getD_eq_getElem?_getD, List.getElem?_map]
  cases offs[i]? <;> simp [oabs_le]

lemma codeHasAnchor_map_some (offs : List ℚ) (i : ℕ) :
    codeHasAnchor (offs.map some) i = spec_current_has_valid_anchor offs i := by
  cases i with
  | zero => rfl
  | succ j =>
    show codeAnchorWithin (offs.map some) j = _
    rw [codeAnchorWithin_map_some]
    rfl

/-! ## Data model and `match_station_with_modis` -/

/-- One station observation: the `datetime` index (seconds), the
`latitude`/`longitude` columns, and the remaining variable columns. -/
structure Row where
  datetime : ℚ
  latitude : ℚ
  longitude : ℚ
  vars : List ℚ
deriving DecidableEq

/-- A `(time, y, x)` query key for the MODIS grid. -/
abbrev Key := ℚ × ℚ × ℚ

/-- The result of `da_modis.sel(..., method="nearest")` for one key:
the looked-up LST value (may be NaN) and the actual time coordinate of
the matched cell. -/
structure GridSample where
  value : Fl
  time : ℚ
deriving DecidableEq

/-- A station row after the two assignments
`df_station["modis_LST"] = ...` and `df_station["modis_time"] = ...`. -/
structure Annot where
  row : Row
  modis_LST : Fl
  modis_time : ℚ
deriving DecidableEq

/-- The key of a station row, in the column order
`[datetime, latitude, longitude]` used by `create_modis_selection`. -/
def rowKey (r : Row) : Key := (r.datetime, r.latitude, r.longitude)

/-- Lexicographic order on `(time, y, x)` keys, as used by
`sort_index()` on the index `[datetime, latitude, longitude]`. -/
def keyLe (a b : Key) : Bool :=
  decide (a.1 < b.1 ∨ (a.1 = b.1 ∧
    (a.2.1 < b.2.1 ∨ (a.2.1 = b.2.1 ∧ a.2.2 ≤ b.2.2))))

/-- Insert a key into a sorted list of keys. -/
def insertKey (k : Key) : List Key → List Key
  | [] => [k]
  | x :: t => if keyLe k x then k :: x :: t else x :: insertKey k t

/-- Sorting of the key list, modelling `sort_index()`. -/
def sortKeys : List Key → List Key
  | [] => []
  | k :: t => insertKey k (sortKeys t)

/-- Embedding of `create_modis_selection` (matchup.py, lines 118–161):
one `(time, y, x)` key per row, sorted lexicographically.  No filtering
and no deduplication happen. -/
def create_modis_selection (df : List Row) : List Key :=
  sortKeys (df.map rowKey)

/-- The two assignments of lines 63–64: the nearest-neighbour samples for
the sorted keys are attached *positionally* onto the station rows (which
remain in their original order). -/
def annotate (df_station : List Row) (da_modis : Key → GridSample) : List Annot :=
  List.zipWith (fun r s => Annot.mk r s.value s.time)
    df_station ((create_modis_selection df_station).map da_modis)

/-- Lines 66–74: `time_diff_hrs = (time_station - time_modis).dt.total_seconds() / 3600`. -/
def timeDiffHrs (annotated : List Annot) : List ℚ :=
  annotated.map (fun a => (a.row.datetime - a.modis_time) / 3600)

/-- Model of `df.loc[boolean mask]`: keep the rows whose mask entry is true,
preserving order. -/
def selectMask {α : Type} : List α → List Bool → List α
  | [], _ => []
  | _ :: _, [] => []
  | a :: l, b :: m => if b then a :: selectMask l m else selectMask l m

/-- The masks of line 76 applied to the annotated station frame. -/
def masksOf (df_station : List Row) (da_modis : Key → GridSample) :
    List Bool × List Bool :=
  get_matching_and_prev ((timeDiffHrs (annotate df_station da_modis)).map some)

/-- Line 77: `df_t1 = df_station.loc[mask_t1.values]`. -/
def df_t1 (df_station : List Row) (da_modis : Key → GridSample) : List Annot :=
  selectMask (annotate df_station da_modis) (masksOf df_station da_modis).1

/-- Line 78: `df_t0 = df_station.loc[mask_t0.values].set_index(df_t1.index)`. -/
def df_t0 (df_station : List Row) (da_modis : Key → GridSample) : List Annot :=
  selectMask (annotate df_station da_modis) (masksOf df_station da_modis).2

/-- One row of `df_t1.join(df_t0, rsuffix="_tm1")`: all columns of the
current row plus all columns of the previous row with suffix `_tm1`.
The index (the current `datetime`) comes from the left side. -/
structure JoinedRow where
  datetime : ℚ
  latitude : ℚ
  longitude : ℚ
  vars : List ℚ
  modis_LST : Fl
  modis_time : ℚ
  latitude_tm1 : ℚ
  longitude_tm1 : ℚ
  vars_tm1 : List ℚ
  modis_LST_tm1 : Fl
  modis_time_tm1 : ℚ
deriving DecidableEq

/-- The output record after
`.drop(columns=["modis_time_tm1", "modis_LST_tm1", "latitude_tm1", "longitude_tm1"])`. -/
structure PairedRecord where
  datetime : ℚ
  latitude : ℚ
  longitude : ℚ
  vars : List ℚ
  modis_LST : Fl
  modis_time : ℚ
  vars_tm1 : List ℚ
deriving DecidableEq

/-- Merging one current row with its positionally paired previous row. -/
def joinOne (c p : Annot) : JoinedRow :=
  ⟨c.row.datetime, c.row.latitude, c.row.longitude, c.row.vars,
   c.modis_LST, c.modis_time,
   p.row.latitude, p.row.longitude, p.row.vars, p.modis_LST, p.modis_time⟩

/-- The `.drop(columns=[...])` projection. -/
def dropCols (j : JoinedRow) : PairedRecord :=
  ⟨j.datetime, j.latitude, j.longitude, j.vars, j.modis_LST, j.modis_time,
   j.vars_tm1⟩

/-- Embedding of `match_station_with_modis` (matchup.py, lines 49–93):
select the nearest MODIS samples, attach them, classify with
`get_matching_and_prev`, join current rows with previous rows
positionally, drop rows with NaN `modis_LST`, drop the previous row's
grid columns. -/
def match_station_with_modis (df_station : List Row)
    (da_modis : Key → GridSample) : List PairedRecord :=
  ((List.zipWith joinOne (df_t1 df_station da_modis) (df_t0 df_station da_modis)).filter
    (fun j => j.modis_LST.isSome)).map dropCols

/-- The current/previous row pairs underlying the emitted records (the
zipped `df_t1`/`df_t0` rows that survive the `dropna` on the current
`modis_LST`). -/
def pairedRows (df_station : List Row) (da_modis : Key → GridSample) :
    List (Annot × Annot) :=
  ((df_t1 df_station da_modis).zip (df_t0 df_station da_modis)).filter
    (fun p => p.1.modis_LST.isSome)

/-! ## Claims -/

/-- C1: with the default tolerances (1 h match, 4 h lookback), the two
masks returned by `get_matching_and_prev` agree, index by index, with the
spec's five-step algorithm, ties at the tolerance boundaries included. -/
theorem C1_masks_equal_spec_five_steps (offs : List ℚ) (i : ℕ)
    (hi : i < offs.length) :
    (get_matching_and_prev (offs.map some)).1[i]? =
      some (spec_is_current_match offs i) ∧
    (get_matching_and_prev (offs.map some)).2[i]? =
      some (spec_is_previous_anchor offs i) := by
  have hilen : i < (offs.map some).length := by simpa using hi
  constructor
  · rw [gm_fst_indexed (offs.map some) i, if_pos hilen]
    simp only [codeCur_map_some, codeHasAnchor_map_some]
    rfl
  · rw [gm_snd_indexed (offs.map some) i, if_pos hilen]
    simp only [codeAnchorCand_map_some, codeAnchorWithin_map_some]
    rfl

theorem C1_witness :
    1 < ([(2 : ℚ), 0]).length ∧
    ((get_matching_and_prev ([(2 : ℚ), 0].map some)).1[1]? =
       some (spec_is_current_match [(2 : ℚ), 0] 1) ∧
     (get_matching_and_prev ([(2 : ℚ), 0].map some)).2[1]? =
       some (spec_is_previous_anchor [(2 : ℚ), 0] 1)) :=
  ⟨by decide, C1_masks_equal_spec_five_steps [(2 : ℚ), 0] 1 (by decide)⟩

/-- C5: the first row can never be a current match, and a
single-observation group yields zero PairedRecords (an empty result, not
an error). -/
theorem C5_first_row_and_singleton (offs : List Fl) (h : 0 < offs.length) :
    (get_matching_and_prev offs).1[0]? = some false ∧
    ∀ (r : Row) (da : Key → GridSample), match_station_with_modis [r] da = [] := by
  constructor
  · rw [gm_fst_indexed offs 0, if_pos h]
    simp [codeHasAnchor]
  · intro r da
    simp [match_station_with_modis, df_t1, df_t0, masksOf, annotate,
      create_modis_selection, sortKeys, insertKey, rowKey, timeDiffHrs,
      get_matching_and_prev, mask_match_t1, mask_match_t0,
      mask_match_t0_within_4hrs, mask_match_t1_with_prev, shiftm1, shiftp1,
      selectMask]

theorem C5_witness :
    0 < ([some (0 : ℚ)] : List Fl).length ∧
    (get_matching_and_prev ([some (0 : ℚ)] : List Fl)).1[0]? = some false :=
  ⟨by decide, (C5_first_row_and_singleton [some (0 : ℚ)] (by decide)).1⟩

lemma code_fst_succ (offs : List Fl) (j : ℕ) :
    (codeCur offs (j + 1) && codeHasAnchor offs (j + 1)) =
      (codeAnchorCand offs j && codeAnchorWithin offs j) := rfl

/-- The previous-anchor mask is the current-match mask shifted left by one. -/
lemma gm_snd_eq_fst_succ (offs : List Fl) (i : ℕ) (hi : i + 1 < offs.length) :
    (get_matching_and_prev offs).2[i]? = (get_matching_and_prev offs).1[i + 1]? := by
  rw [gm_fst_indexed offs (i + 1), gm_snd_indexed offs i,
    if_pos hi, if_pos (by omega : i < offs.length)]
  rfl

/-- The last entry of the previous-anchor mask is false. -/
lemma gm_snd_last_false (offs : List Fl) (h : 0 < offs.length) :
    (get_matching_and_prev offs).2[offs.length - 1]? = some false := by
  rw [gm_snd_indexed offs (offs.length - 1), if_pos (by omega)]
  have hc : codeAnchorCand offs (offs.length - 1) = false := by
    unfold codeAnchorCand codeCur
    rw [List.getD_eq_getElem?_getD, List.getElem?_eq_none (by omega)]
    rfl
  simp [hc]

lemma gm_fst_eq_cons_dropLast (offs : List Fl) (h : offs ≠ []) :
    (get_matching_and_prev offs).1 =
      false :: (get_matching_and_prev offs).2.dropLast := by
  have hn : 0 < offs.length := List.length_pos.2 h
  apply List.ext_getElem?
  intro i
  cases i with
  | zero =>
    rw [gm_fst_indexed offs 0, if_pos hn]
    simp [codeHasAnchor]
  | succ j =>
    rw [List.getElem?_cons_succ, List.getElem?_dropLast, gm_snd_length,
      gm_fst_indexed offs (j + 1)]
    by_cases hj : j + 1 < offs.length
    · rw [if_pos hj, if_pos (by omega : j < offs.length - 1),
        gm_snd_indexed offs j, if_pos (by omega : j < offs.length)]
      rfl
    · rw [if_neg hj, if_neg (by omega : ¬ j < offs.length - 1)]

lemma gm_snd_eq_dropLast_append (offs : List Fl) (h : offs ≠ []) :
    (get_matching_and_prev offs).2 =
      (get_matching_and_prev offs).2.dropLast ++ [false] := by
  have hn : 0 < offs.length := List.length_pos.2 h
  have hne : (get_matching_and_prev offs).2 ≠ [] := by
    intro hcon
    have := gm_snd_length offs
    rw [hcon] at this
    simp at this
    omega
  have hlast : false ∈ (get_matching_and_prev offs).2.getLast? := by
    rw [List.getLast?_eq_getElem?, gm_snd_length]
    exact gm_snd_last_false offs hn
  exact (List.dropLast_append_getLast? false hlast).symm

/-- Both masks select equally many rows. -/
lemma gm_count_eq (offs : List Fl) :
    (get_matching_and_prev offs).1.count true =
      (get_matching_and_prev offs).2.count true := by
  rcases List.eq_nil_or_concat offs with hnil | ⟨_, _, _⟩
  case inl =>
    subst hnil
    rfl
  case inr h =>
    have hne : offs ≠ [] := by
      rcases h with ⟨l, a, rfl⟩
      simp
    rw [gm_fst_eq_cons_dropLast offs hne]
    conv_rhs => rw [gm_snd_eq_dropLast_append offs hne]
    rw [List.count_cons, List.count_append]
    simp

lemma selectMask_nil_mask {α : Type} (l : List α) : selectMask l [] = [] := by
  cases l <;> rfl

/-- Any pair in the positional zip of the current-selected rows with the
previous-selected rows consists of positionally adjacent input elements,
provided the left mask is `false :: m` and the right mask is `m ++ [false]`. -/
lemma zip_select_adjacent {α : Type} :
    ∀ (m : List Bool) (l : List α) (p : α × α),
      p ∈ (selectMask l.tail m).zip (selectMask l (m ++ [false])) →
      ∃ i, l[i]? = some p.2 ∧ l[i + 1]? = some p.1 := by
  intro m
  induction m with
  | nil =>
    intro l p hp
    rw [selectMask_nil_mask] at hp
    simp at hp
  | cons b m' ih =>
    intro l p hp
    cases l with
    | nil => simp [selectMask] at hp
    | cons a l' =>
      cases l' with
      | nil => simp [selectMask] at hp
      | cons c l'' =>
        simp only [List.tail_cons] at hp
        cases b with
        | true =>
          rw [show selectMask (c :: l'') (true :: m') = c :: selectMask l'' m'
                from rfl,
              show ((true :: m') ++ [false]) = true :: (m' ++ [false]) from rfl,
              show selectMask (a :: c :: l'') (true :: (m' ++ [false])) =
                a :: selectMask (c :: l'') (m' ++ [false]) from rfl] at hp
          rw [List.zip_cons_cons, List.mem_cons] at hp
          rcases hp with hp | hp
          · subst hp
            exact ⟨0, by simp, by simp⟩
          · rcases ih (c :: l'') p (by simpa using hp) with ⟨i, h1, h2⟩
            exact ⟨i + 1, by simpa using h1, by simpa using h2⟩
        | false =>
          rw [show selectMask (c :: l'') (false :: m') = selectMask l'' m'
                from rfl,
              show ((false :: m') ++ [false]) = false :: (m' ++ [false]) from rfl,
              show selectMask (a :: c :: l'') (false :: (m' ++ [false])) =
                selectMask (c :: l'') (m' ++ [false]) from rfl] at hp
          rcases ih (c :: l'') p (by simpa using hp) with ⟨i, h1, h2⟩
          exact ⟨i + 1, by simpa using h1, by simpa using h2⟩

lemma chain'_lt_of_getElem? {ts : List ℚ} (hc : List.Chain' (· < ·) ts)
    {i : ℕ} {x y : ℚ} (hx : ts[i]? = some x) (hy : ts[i + 1]? = some y) :
    x < y := by
  rcases List.getElem?_eq_some_iff.1 hx with ⟨hi, hx'⟩
  rcases List.getElem?_eq_some_iff.1 hy with ⟨hi1, hy'⟩
  have hlt := List.chain'_iff_get.1 hc i (by omega)
  have hgx : ts.get ⟨i, by omega⟩ = x := by
    rw [List.get_eq_getElem]
    exact hx'
  have hgy : ts.get ⟨i + 1, by omega⟩ = y := by
    rw [List.get_eq_getElem]
    exact hy'
  rw [hgx, hgy] at hlt
  exact hlt

/-- C2: the previous-anchor mask equals the current-match mask shifted by
one (with a false final entry), both masks select equally many rows, and
the positional pairing of selected rows pairs each current row with its
immediate positional predecessor, whose timestamp is strictly earlier. -/
theorem C2_masks_shift_and_pairing (offs : List Fl) :
    (∀ i, i + 1 < offs.length →
       (get_matching_and_prev offs).2[i]? = (get_matching_and_prev offs).1[i + 1]?) ∧
    (0 < offs.length →
       (get_matching_and_prev offs).2[offs.length - 1]? = some false) ∧
    (get_matching_and_prev offs).1.count true =
      (get_matching_and_prev offs).2.count true ∧
    (∀ ts : List ℚ, List.Chain' (· < ·) ts → ts.length = offs.length →
       ∀ p ∈ (selectMask ts (get_matching_and_prev offs).1).zip
              (selectMask ts (get_matching_and_prev offs).2),
         (∃ i, ts[i]? = some p.2 ∧ ts[i + 1]? = some p.1) ∧ p.2 < p.1) := by
  refine ⟨gm_snd_eq_fst_succ offs, gm_snd_last_false offs, gm_count_eq offs, ?_⟩
  intro ts hc hlen p hp
  rcases List.eq_nil_or_concat ts with rfl | hcat
  · have hoff : offs = [] := by
      simp at hlen
      exact (List.length_eq_zero.1 hlen.symm)
    subst hoff
    simp [selectMask] at hp
  · have hne : ts ≠ [] := by
      rcases hcat with ⟨l, a, rfl⟩
      simp
    have hoffne : offs ≠ [] := by
      intro hcon
      subst hcon
      simp at hlen
      exact hne hlen
    have h1 := gm_fst_eq_cons_dropLast offs hoffne
    have h2 := gm_snd_eq_dropLast_append offs hoffne
    have hsel : selectMask ts (false :: (get_matching_and_prev offs).2.dropLast) =
        selectMask ts.tail (get_matching_and_prev offs).2.dropLast := by
      cases ts with
      | nil => exact absurd rfl hne
      | cons a t => rfl
    have hp' : p ∈ (selectMask ts.tail (get_matching_and_prev offs).2.dropLast).zip
        (selectMask ts ((get_matching_and_prev offs).2.dropLast ++ [false])) := by
      have e1 : selectMask ts (get_matching_and_prev offs).1 =
          selectMask ts.tail (get_matching_and_prev offs).2.dropLast := by
        rw [h1]
        exact hsel
      have e2 : selectMask ts (get_matching_and_prev offs).2 =
          selectMask ts ((get_matching_and_prev offs).2.dropLast ++ [false]) := by
        conv_lhs => rw [h2]
      rw [← e1, ← e2]
      exact hp
    rcases zip_select_adjacent _ ts p hp' with ⟨i, hx, hy⟩
    exact ⟨⟨i, hx, hy⟩, chain'_lt_of_getElem? hc hx hy⟩

theorem C2_witness :
    (∃ i, ([(5 : ℚ), 9])[i]? = some (5 : ℚ) ∧
      ([(5 : ℚ), 9])[i + 1]? = some (9 : ℚ)) ∧ (5 : ℚ) < 9 := by
  have h := (C2_masks_shift_and_pairing [some 2, some 0]).2.2.2 [5, 9]
    (by norm_num [List.chain'_cons]) (by decide) ((9 : ℚ), (5 : ℚ)) (by decide)
  simpa using h

/-- C10: a position with an undefined (NaN) offset is marked neither as a
current match nor as a previous anchor: the NaN fails both the 1-hour and
the 4-hour comparison. -/
theorem C10_nan_offset_in_neither_mask (offs : List Fl) (i : ℕ)
    (h : offs[i]? = some none) :
    (get_matching_and_prev offs).1[i]? = some false ∧
    (get_matching_and_prev offs).2[i]? = some false := by
  have hi : i < offs.length := by
    rcases List.getElem?_eq_some_iff.1 h with ⟨hi, _⟩
    exact hi
  constructor
  · rw [gm_fst_indexed offs i, if_pos hi]
    simp [codeCur, List.getD_eq_getElem?_getD, h, oabs_le]
  · rw [gm_snd_indexed offs i, if_pos hi]
    simp [codeAnchorWithin, List.getD_eq_getElem?_getD, h, oabs_le]

lemma selectMask_mem {α : Type} :
    ∀ (l : List α) (m : List Bool) (a : α), a ∈ selectMask l m →
      ∃ i : ℕ, l[i]? = some a ∧ m[i]? = some true := by
  intro l
  induction l with
  | nil =>
    intro m a ha
    rw [show selectMask ([] : List α) m = [] from by cases m <;> rfl] at ha
    simp at ha
  | cons x l' ih =>
    intro m a ha
    cases m with
    | nil => simp [selectMask] at ha
    | cons b m' =>
      cases b with
      | true =>
        rw [show selectMask (x :: l') (true :: m') = x :: selectMask l' m'
          from rfl] at ha
        rcases List.mem_cons.1 ha with rfl | ha
        · exact ⟨0, by simp, by simp⟩
        · rcases ih m' a ha with ⟨i, h1, h2⟩
          exact ⟨i + 1, by simpa using h1, by simpa using h2⟩
      | false =>
        rw [show selectMask (x :: l') (false :: m') = selectMask l' m'
          from rfl] at ha
        rcases ih m' a ha with ⟨i, h1, h2⟩
        exact ⟨i + 1, by simpa using h1, by simpa using h2⟩

/-- The offset list of the annotated frame, at an index holding `a`. -/
lemma offs_getElem?_of_annot (annotated : List Annot) (i : ℕ) (a : Annot)
    (h : annotated[i]? = some a) :
    ((timeDiffHrs annotated).map some)[i]? =
      some (some ((a.row.datetime - a.modis_time) / 3600)) := by
  simp [timeDiffHrs, List.getElem?_map, h]

/-- Every row selected by the final current mask has its own offset within
1 hour. -/
lemma df_t1_offset_le (df : List Row) (da : Key → GridSample) (a : Annot)
    (ha : a ∈ df_t1 df da) :
    |(a.row.datetime - a.modis_time) / 3600| ≤ 1 := by
  rcases selectMask_mem _ _ _ ha with ⟨i, hl, hm⟩
  set offs := (timeDiffHrs (annotate df da)).map some with hoffs
  have hidx := gm_fst_indexed offs i
  rw [show (masksOf df da).1 = (get_matching_and_prev offs).1 from rfl] at hm
  rw [hidx] at hm
  by_cases hi : i < offs.length
  · rw [if_pos hi] at hm
    have hb : (codeCur offs i && codeHasAnchor offs i) = true := by
      simpa using hm
    rw [Bool.and_eq_true] at hb
    have hcur : codeCur offs i = true := hb.1
    have ho := offs_getElem?_of_annot (annotate df da) i a hl
    rw [← hoffs] at ho
    unfold codeCur at hcur
    rw [List.getD_eq_getElem?_getD, ho] at hcur
    simpa [oabs_le] using hcur
  · rw [if_neg hi] at hm
    exact absurd hm (by simp)

/-- Every row selected by the final previous-anchor mask has its own
offset within 4 hours. -/
lemma df_t0_offset_le (df : List Row) (da : Key → GridSample) (a : Annot)
    (ha : a ∈ df_t0 df da) :
    |(a.row.datetime - a.modis_time) / 3600| ≤ 4 := by
  rcases selectMask_mem _ _ _ ha with ⟨i, hl, hm⟩
  set offs := (timeDiffHrs (annotate df da)).map some with hoffs
  have hidx := gm_snd_indexed offs i
  rw [show (masksOf df da).2 = (get_matching_and_prev offs).2 from rfl] at hm
  rw [hidx] at hm
  by_cases hi : i < offs.length
  · rw [if_pos hi] at hm
    have hb : (codeAnchorCand offs i && codeAnchorWithin offs i) = true := by
      simpa using hm
    rw [Bool.and_eq_true] at hb
    have hwithin : codeAnchorWithin offs i = true := hb.2
    rw [show codeAnchorWithin offs i =
      (codeAnchorCand offs i && oabs_le (offs.getD i none) 4) from rfl,
      Bool.and_eq_true] at hwithin
    have h4 : oabs_le (offs.getD i none) 4 = true := hwithin.2
    have ho := offs_getElem?_of_annot (annotate df da) i a hl
    rw [← hoffs] at ho
    rw [List.getD_eq_getElem?_getD, ho] at h4
    simpa [oabs_le] using h4
  · rw [if_neg hi] at hm
    exact absurd hm (by simp)

/-- C3: every emitted pair satisfies both tolerance postconditions — the
current row's offset (station time minus matched MODIS time) is within
1 hour and the anchor row's own offset is within 4 hours. -/
theorem C3_tolerance_postconditions (df : List Row) (da : Key → GridSample)
    (_hmono : List.Chain' (· < ·) (df.map Row.datetime)) :
    ∀ p ∈ pairedRows df da,
      |(p.1.row.datetime - p.1.modis_time) / 3600| ≤ 1 ∧
      |(p.2.row.datetime - p.2.modis_time) / 3600| ≤ 4 := by
  intro p hp
  rcases List.mem_filter.1 hp with ⟨hz, _⟩
  rcases p with ⟨c, q⟩
  rcases List.of_mem_zip hz with ⟨hc, hq⟩
  exact ⟨df_t1_offset_le df da c hc, df_t0_offset_le df da q hq⟩

/-- A well-formed two-observation station group: strictly increasing
timestamps, one variable column. -/
def exRows : List Row := [⟨0, 1, 2, [10]⟩, ⟨3600, 1, 2, [20]⟩]

/-- A grid whose nearest cell always carries value 5 and matches the query
time exactly. -/
def exDa : Key → GridSample := fun k => ⟨some 5, k.1⟩

/-- The single record `match_station_with_modis` emits for `exRows`/`exDa`. -/
def exRec : PairedRecord := ⟨3600, 1, 2, [20], some 5, 3600, [10]⟩

/-- The current row of the single emitted pair for `exRows`/`exDa`. -/
def exCur : Annot := ⟨⟨3600, 1, 2, [20]⟩, some 5, 3600⟩

/-- The previous row of the single emitted pair for `exRows`/`exDa`. -/
def exPrev : Annot := ⟨⟨0, 1, 2, [10]⟩, some 5, 0⟩

lemma exAnn : annotate exRows exDa = [exPrev, exCur] := by decide

lemma exOffs : (timeDiffHrs (annotate exRows exDa)).map some =
    [some 0, some 0] := by
  rw [exAnn]
  norm_num [timeDiffHrs, exPrev, exCur]

lemma exMasks : masksOf exRows exDa = ([false, true], [true, false]) := by
  unfold masksOf
  rw [show get_matching_and_prev ((timeDiffHrs (annotate exRows exDa)).map some)
      = get_matching_and_prev [some 0, some 0] from by rw [exOffs]]
  decide

lemma exT1 : df_t1 exRows exDa = [exCur] := by
  unfold df_t1
  rw [exAnn, exMasks]
  decide

lemma exT0 : df_t0 exRows exDa = [exPrev] := by
  unfold df_t0
  rw [exAnn, exMasks]
  decide

lemma exMatch : match_station_with_modis exRows exDa = [exRec] := by
  unfold match_station_with_modis
  rw [exT1, exT0]
  decide

lemma exPairs : pairedRows exRows exDa = [(exCur, exPrev)] := by
  unfold pairedRows
  rw [exT1, exT0]
  decide

lemma exChain : List.Chain' (· < ·) (exRows.map Row.datetime) := by
  norm_num [exRows, List.chain'_cons]

theorem C3_witness :
    List.Chain' (· < ·) (exRows.map Row.datetime) ∧
    (exCur, exPrev) ∈ pairedRows exRows exDa ∧
    |(exCur.row.datetime - exCur.modis_time) / 3600| ≤ 1 ∧
    |(exPrev.row.datetime - exPrev.modis_time) / 3600| ≤ 4 := by
  have hmem : (exCur, exPrev) ∈ pairedRows exRows exDa := by
    rw [exPairs]
    exact List.mem_singleton.2 rfl
  have h := C3_tolerance_postconditions exRows exDa exChain (exCur, exPrev) hmem
  exact ⟨exChain, hmem, h.1, h.2⟩

/-- C4: the NaN grid value flows through and is removed by the drop rule:
no emitted PairedRecord has an undefined `modis_LST`. -/
theorem C4_no_undefined_matched_value (df : List Row) (da : Key → GridSample)
    (r : PairedRecord) (hr : r ∈ match_station_with_modis df da) :
    r.modis_LST.isSome = true := by
  rcases List.mem_map.1 hr with ⟨j, hj, rfl⟩
  rcases List.mem_filter.1 hj with ⟨_, hsome⟩
  simpa [dropCols] using hsome

theorem C4_witness :
    exRec ∈ match_station_with_modis exRows exDa ∧
    exRec.modis_LST.isSome = true := by
  have hmem : exRec ∈ match_station_with_modis exRows exDa := by
    rw [exMatch]
    exact List.mem_singleton.2 rfl
  exact ⟨hmem, C4_no_undefined_matched_value exRows exDa exRec hmem⟩

/-! Sortedness facts for `create_modis_selection`. -/

lemma insertKey_of_head_le (k : Key) (l : List Key)
    (h : ∀ x t, l = x :: t → keyLe k x = true) : insertKey k l = k :: l := by
  cases l with
  | nil => rfl
  | cons x t =>
    unfold insertKey
    rw [h x t rfl]
    simp

lemma sortKeys_of_chain : ∀ l : List Key,
    List.Chain' (fun a b => keyLe a b = true) l → sortKeys l = l := by
  intro l
  induction l with
  | nil => intro _; rfl
  | cons k t ih =>
    intro hc
    rcases List.chain'_cons'.1 hc with ⟨hhead, htail⟩
    unfold sortKeys
    rw [ih htail]
    apply insertKey_of_head_le
    intro x t' ht
    apply hhead
    rw [ht]
    rfl

lemma keyLe_of_time_lt (a b : Row) (h : a.datetime < b.datetime) :
    keyLe (rowKey a) (rowKey b) = true := by
  simp [keyLe, rowKey]
  exact Or.inl h

lemma zipWith_map_self {α β γ : Type} (f : α → β → γ) (g : α → β) :
    ∀ l : List α, List.zipWith f l (l.map g) = l.map (fun x => f x (g x)) := by
  intro l
  induction l with
  | nil => rfl
  | cons x t ih => simp [ih]

/-- C6: for strictly increasing timestamps, `create_modis_selection`
produces exactly one key per observation, in the original positional
order (its sort is the identity on the already-sorted keys), so the
positional attachment of the grid samples is index-aligned. -/
theorem C6_selection_identity_and_alignment (df : List Row)
    (da : Key → GridSample)
    (hmono : List.Chain' (· < ·) (df.map Row.datetime)) :
    create_modis_selection df = df.map rowKey ∧
    (create_modis_selection df).length = df.length ∧
    annotate df da =
      df.map (fun r => ⟨r, (da (rowKey r)).value, (da (rowKey r)).time⟩) := by
  have hchain : List.Chain' (fun a b => keyLe a b = true) (df.map rowKey) := by
    have hc : List.Chain' (fun a b : Row => a.datetime < b.datetime) df := by
      rw [List.chain'_map] at hmono
      exact hmono
    rw [List.chain'_map]
    exact hc.imp keyLe_of_time_lt
  have hsel : create_modis_selection df = df.map rowKey :=
    sortKeys_of_chain (df.map rowKey) hchain
  refine ⟨hsel, by rw [hsel]; simp, ?_⟩
  unfold annotate
  rw [hsel, List.map_map]
  exact zipWith_map_self _ _ df

theorem C6_witness :
    List.Chain' (· < ·) (exRows.map Row.datetime) ∧
    (create_modis_selection exRows = exRows.map rowKey ∧
     (create_modis_selection exRows).length = exRows.length ∧
     annotate exRows exDa =
       exRows.map (fun r => ⟨r, (exDa (rowKey r)).value, (exDa (rowKey r)).time⟩)) :=
  ⟨exChain, C6_selection_identity_and_alignment exRows exDa exChain⟩

/-- The Joiner merge contract of the spec: current row's matched time and
value, current variable columns unsuffixed, anchor variable columns
suffixed; the anchor's grid-lookup columns and its latitude/longitude are
not taken over. -/
def specMerge (p : Annot × Annot) : PairedRecord :=
  ⟨p.1.row.datetime, p.1.row.latitude, p.1.row.longitude, p.1.row.vars,
   p.1.modis_LST, p.1.modis_time, p.2.row.vars⟩

lemma zipWith_eq_map_zip {α β γ : Type} (f : α → β → γ) :
    ∀ (l₁ : List α) (l₂ : List β),
      List.zipWith f l₁ l₂ = (l₁.zip l₂).map (fun p => f p.1 p.2) := by
  intro l₁
  induction l₁ with
  | nil => intro l₂; rfl
  | cons x t ih =>
    intro l₂
    cases l₂ with
    | nil => rfl
    | cons y u => simp [ih]

lemma map_zipWith_sublist {α β γ δ : Type} (f : α → β → γ) (g : γ → δ)
    (h : α → δ) (hc : ∀ a b, g (f a b) = h a) :
    ∀ (l₁ : List α) (l₂ : List β),
      List.Sublist ((List.zipWith f l₁ l₂).map g) (l₁.map h) := by
  intro l₁
  induction l₁ with
  | nil => intro l₂; simp
  | cons x t ih =>
    intro l₂
    cases l₂ with
    | nil => simp
    | cons y u =>
      rw [List.zipWith_cons_cons, List.map_cons, List.map_cons, hc]
      exact (ih u).cons₂ (h x)

lemma selectMask_sublist {α : Type} :
    ∀ (l : List α) (m : List Bool), List.Sublist (selectMask l m) l := by
  intro l
  induction l with
  | nil => intro m; rw [show selectMask ([] : List α) m = [] from by cases m <;> rfl]
  | cons x t ih =>
    intro m
    cases m with
    | nil => simp [selectMask]
    | cons b m' =>
      cases b with
      | true => exact (ih m').cons₂ x
      | false => exact (ih m').cons x

/-- C8: every emitted record is exactly the spec's merge of its underlying
current/previous pair — current matched time and value, current variables
unsuffixed, previous variables suffixed, no previous grid columns and no
duplicated latitude/longitude — and the emitted records keep the current
rows' original input order. -/
theorem C8_record_shape_and_order (df : List Row) (da : Key → GridSample) :
    match_station_with_modis df da = (pairedRows df da).map specMerge ∧
    List.Sublist ((match_station_with_modis df da).map PairedRecord.datetime)
      (df.map Row.datetime) := by
  constructor
  · unfold match_station_with_modis pairedRows
    rw [zipWith_eq_map_zip joinOne, List.filter_map, List.map_map]
    rfl
  · have h1 : List.Sublist
        ((match_station_with_modis df da).map PairedRecord.datetime)
        ((df_t1 df da).map (fun a => a.row.datetime)) := by
      unfold match_station_with_modis
      rw [List.map_map]
      have hsub : List.Sublist
          ((List.zipWith joinOne (df_t1 df da) (df_t0 df da)).filter
            (fun j => j.modis_LST.isSome))
          (List.zipWith joinOne (df_t1 df da) (df_t0 df da)) :=
        List.filter_sublist _
      have hmap := hsub.map (PairedRecord.datetime ∘ dropCols)
      exact hmap.trans
        (map_zipWith_sublist joinOne (PairedRecord.datetime ∘ dropCols)
          (fun a => a.row.datetime) (fun a b => rfl) (df_t1 df da) (df_t0 df da))
    have h2 : List.Sublist ((df_t1 df da).map (fun a => a.row.datetime))
        ((annotate df da).map (fun a => a.row.datetime)) :=
      (selectMask_sublist _ _).map _
    have h3 : List.Sublist ((annotate df da).map (fun a => a.row.datetime))
        (df.map Row.datetime) := by
      unfold annotate
      exact map_zipWith_sublist (fun r s => Annot.mk r s.value s.time)
        (fun a => a.row.datetime) Row.datetime (fun a b => rfl) df
        ((create_modis_selection df).map da)
    exact (h1.trans h2).trans h3

theorem C10_witness :
    ([some (0 : ℚ), none, some 0] : List Fl)[1]? = some none ∧
    ((get_matching_and_prev ([some (0 : ℚ), none, some 0] : List Fl)).1[1]? =
       some false ∧
     (get_matching_and_prev ([some (0 : ℚ), none, some 0] : List Fl)).2[1]? =
       some false) :=
  ⟨by decide,
   C10_nan_offset_in_neither_mask [some (0 : ℚ), none, some 0] 1 (by decide)⟩

/-! ## C9: anchor with NaN grid value, large anchor-to-current gap -/

/-- Two observations 10 hours apart. -/
def ex9Rows : List Row := [⟨0, 1, 2, [7]⟩, ⟨36000, 1, 2, [8]⟩]

/-- Grid lookup: the first query gets a NaN value two hours away, the
second a defined value at the query time. -/
def ex9Da : Key → GridSample := fun k =>
  if k.1 = 0 then ⟨none, -7200⟩ else ⟨some 300, 36000⟩

/-- The current row of the emitted pair. -/
def ex9Cur : Annot := ⟨⟨36000, 1, 2, [8]⟩, some 300, 36000⟩

/-- The anchor row of the emitted pair: NaN grid value, offset 2 h. -/
def ex9Prev : Annot := ⟨⟨0, 1, 2, [7]⟩, none, -7200⟩

lemma ex9Ann : annotate ex9Rows ex9Da = [ex9Prev, ex9Cur] := by decide

lemma ex9Offs : (timeDiffHrs (annotate ex9Rows ex9Da)).map some =
    [some 2, some 0] := by
  rw [ex9Ann]
  norm_num [timeDiffHrs, ex9Prev, ex9Cur]

lemma ex9Masks : masksOf ex9Rows ex9Da = ([false, true], [true, false]) := by
  unfold masksOf
  rw [show get_matching_and_prev ((timeDiffHrs (annotate ex9Rows ex9Da)).map some)
      = get_matching_and_prev [some 2, some 0] from by rw [ex9Offs]]
  decide

lemma ex9T1 : df_t1 ex9Rows ex9Da = [ex9Cur] := by
  unfold df_t1
  rw [ex9Ann, ex9Masks]
  decide

lemma ex9T0 : df_t0 ex9Rows ex9Da = [ex9Prev] := by
  unfold df_t0
  rw [ex9Ann, ex9Masks]
  decide

lemma ex9Pairs : pairedRows ex9Rows ex9Da = [(ex9Cur, ex9Prev)] := by
  unfold pairedRows
  rw [ex9T1, ex9T0]
  decide

lemma ex9Match : match_station_with_modis ex9Rows ex9Da =
    [specMerge (ex9Cur, ex9Prev)] := by
  unfold match_station_with_modis
  rw [ex9T1, ex9T0]
  decide

/-- C9: the drop rule tests only the current row's matched value — any
zipped pair whose current value is defined survives, whatever the anchor
holds; concretely, a pair whose anchor has a NaN grid value is emitted
because the anchor's own offset (2 h) is within the 4-hour bound, even
though the anchor-to-current timestamp gap (10 h) exceeds it. -/
theorem C9_drop_rule_tests_only_current :
    (∀ (df : List Row) (da : Key → GridSample) (p : Annot × Annot),
        p ∈ (df_t1 df da).zip (df_t0 df da) → p.1.modis_LST.isSome = true →
        p ∈ pairedRows df da) ∧
    pairedRows ex9Rows ex9Da = [(ex9Cur, ex9Prev)] ∧
    ex9Prev.modis_LST = none ∧
    |(ex9Prev.row.datetime - ex9Prev.modis_time) / 3600| ≤ 4 ∧
    ex9Cur.row.datetime - ex9Prev.row.datetime > 4 * 3600 ∧
    match_station_with_modis ex9Rows ex9Da = [specMerge (ex9Cur, ex9Prev)] := by
  refine ⟨?_, ex9Pairs, rfl, by norm_num [ex9Prev],
    by norm_num [ex9Cur, ex9Prev], ex9Match⟩
  intro df da p hmem hsome
  exact List.mem_filter.2 ⟨hmem, hsome⟩

theorem C9_witness : (ex9Cur, ex9Prev) ∈ pairedRows ex9Rows ex9Da := by
  apply C9_drop_rule_tests_only_current.1 ex9Rows ex9Da (ex9Cur, ex9Prev)
  · rw [ex9T1, ex9T0]
    exact List.mem_singleton.2 rfl
  · rfl

/-! ## C7: a non-monotonic group is not rejected -/

/-- A station group with *decreasing* timestamps (violating the
data-model invariant). -/
def badRows : List Row := [⟨36000, 0, 0, [1]⟩, ⟨18000, 0, 0, [2]⟩]

/-- A grid for which the (scrambled) lookups still yield one in-tolerance
current match and one in-bound anchor. -/
def badDa : Key → GridSample := fun k =>
  if k.1 = 18000 then ⟨some 1, 28800⟩ else ⟨some 2, 18000⟩

/-- The current row computed for the invalid group. -/
def badCur : Annot := ⟨⟨18000, 0, 0, [2]⟩, some 2, 18000⟩

/-- The anchor row computed for the invalid group: its station timestamp
is *later* than the current row's. -/
def badPrev : Annot := ⟨⟨36000, 0, 0, [1]⟩, some 1, 28800⟩

lemma badAnn : annotate badRows badDa = [badPrev, badCur] := by decide

lemma badOffs : (timeDiffHrs (annotate badRows badDa)).map some =
    [some 2, some 0] := by
  rw [badAnn]
  norm_num [timeDiffHrs, badPrev, badCur]

lemma badMasks : masksOf badRows badDa = ([false, true], [true, false]) := by
  unfold masksOf
  rw [show get_matching_and_prev ((timeDiffHrs (annotate badRows badDa)).map some)
      = get_matching_and_prev [some 2, some 0] from by rw [badOffs]]
  decide

lemma badT1 : df_t1 badRows badDa = [badCur] := by
  unfold df_t1
  rw [badAnn, badMasks]
  decide

lemma badT0 : df_t0 badRows badDa = [badPrev] := by
  unfold df_t0
  rw [badAnn, badMasks]
  decide

lemma badPairs : pairedRows badRows badDa = [(badCur, badPrev)] := by
  unfold pairedRows
  rw [badT1, badT0]
  decide

lemma badMatch : match_station_with_modis badRows badDa =
    [specMerge (badCur, badPrev)] := by
  unfold match_station_with_modis
  rw [badT1, badT0]
  decide

lemma badRows_not_monotonic : ¬ List.Chain' (· < ·) (badRows.map Row.datetime) := by
  intro h
  rw [show badRows.map Row.datetime = [36000, 18000] from by decide] at h
  rcases List.chain'_cons.1 h with ⟨hlt, _⟩
  norm_num at hlt

/-- C7 counterexample: the core does not validate timestamps.  On a group
with decreasing timestamps, `match_station_with_modis` silently runs the
window classification and even emits a record, instead of rejecting the
group. -/
theorem C7_counterexample :
    ¬ List.Chain' (· < ·) (badRows.map Row.datetime) ∧
    match_station_with_modis badRows badDa = [specMerge (badCur, badPrev)] :=
  ⟨badRows_not_monotonic, badMatch⟩

/-- C7 amended: no validation happens; a non-monotonic group flows through
the shift-based classification unchecked, and the positional adjacency is
corrupted — the emitted pair's anchor has a *later* station timestamp than
its current row. -/
theorem C7_amended_no_validation :
    ¬ List.Chain' (· < ·) (badRows.map Row.datetime) ∧
    pairedRows badRows badDa = [(badCur, badPrev)] ∧
    badCur.row.datetime < badPrev.row.datetime :=
  ⟨badRows_not_monotonic, badPairs, by norm_num [badCur, badPrev]⟩

end Matchup
